import Mathlib

/-!
Shallow embedding of `GenerativeModelsMetrics/utils_func/MixtureDistributions.py`.

Numeric values are modelled as exact rationals.  The external numeric
library's global pseudo-random generator is modelled abstractly: a
generator family `gen : Nat → Nat → ℚ` maps the installed seed and a
position in the stream to the drawn value, and the process-wide state
records the seed installed by the last reseeding call together with the
number of values already consumed.  The external distribution library's
constructors are modelled as the free syntax `TfpDist` of distribution
objects: the Python constructors are thin wrappers that assemble
parameter arrays and hand them to those library constructors, so a
constructed distribution is faithfully represented by which library
constructor was called with which parameters.
-/

/-- Process-wide random state mutated by `reset_random_seeds` and by draws
from the numeric library's global generator: the hash-seed environment
variable, the learning framework's seed, the numeric library's global
generator (installed seed and number of values already drawn) and the
language RNG seed. -/
structure GlobalState where
  pythonHashSeed : Nat
  tfSeed : Nat
  npSeed : Nat
  npPos : Nat
  pySeed : Nat
  deriving DecidableEq, Repr

/-- Embedding of `reset_random_seeds`: installs `seed` as the hash-seed
environment variable, the framework seed, the numeric library's global
generator seed (rewinding its draw position to 0) and the language RNG
seed.  The incoming state is entirely overwritten. -/
def reset_random_seeds (seed : Nat) (_g : GlobalState) : GlobalState :=
  { pythonHashSeed := seed, tfSeed := seed, npSeed := seed, npPos := 0, pySeed := seed }

/-- Advance the numeric library's global generator by `k` consumed draws. -/
def GlobalState.advance (g : GlobalState) (k : Nat) : GlobalState :=
  { g with npPos := g.npPos + k }

/-- One batch of `d` consecutive draws from the numeric library's global
generator (`np.random.sample(d)`): the values at positions
`npPos, npPos+1, …` of the stream determined by the installed seed. -/
def npSampleRow (gen : Nat → Nat → ℚ) (g : GlobalState) (d : Nat) :
    List ℚ × GlobalState :=
  ((List.range d).map (fun j => gen g.npSeed (g.npPos + j)), g.advance d)

/-- A 2-D batch of draws (`np.random.sample([n, d])`): `n` rows of `d`
values each, drawn row-major from the global generator. -/
def npSample2 (gen : Nat → Nat → ℚ) : Nat → Nat → GlobalState →
    List (List ℚ) × GlobalState
  | 0, _, g => ([], g)
  | n + 1, d, g =>
    let rg := npSampleRow gen g d
    let rest := npSample2 gen n d rg.2
    (rg.1 :: rest.1, rest.2)

/-- A numeric tensor of rank 1 or rank 2, as handed to the distribution
library's constructors. -/
inductive Tensor where
  | t1 (v : List ℚ)
  | t2 (v : List (List ℚ))
  deriving DecidableEq, Repr

/-- The rows of a tensor: a rank-1 tensor is a single row. -/
def Tensor.rows : Tensor → List (List ℚ)
  | .t1 v => [v]
  | .t2 v => v

/-- Free syntax of the external distribution library's constructors, as
invoked by this module: `Normal`, `MultivariateNormalDiag`, `Categorical`,
`Mixture`, `MixtureSameFamily` and `Independent`. -/
inductive TfpDist where
  | normal (loc scale : Tensor)
  | multivariateNormalDiag (loc scale_diag : Tensor)
  | categorical (probs : Tensor)
  | mixture (cat : TfpDist) (components : List TfpDist)
  | mixtureSameFamily (mixture_distribution components_distribution : TfpDist)
  | independent (distribution : TfpDist) (reinterpreted_batch_ndims : Nat)

/-- Errors raised by the constructors' own code (as opposed to failures
inside the external libraries).  `unboundLocal` models the Python
`UnboundLocalError` raised when a local variable that was only annotated,
never assigned, is used. -/
inductive PyError where
  | unboundLocal
  deriving DecidableEq, Repr

/-- Embedding of `MixNormal1`: reseeds the global state, draws `loc`
(uniform `[0,10)`, shape components × dimensions), `scale` (uniform
`[0,1)`, same shape) and `probs` (shape dimensions × components), then
builds `Mixture(Categorical(probs), [Normal(loc[i], scale[i]) ...])`. -/
def MixNormal1 (gen : Nat → Nat → ℚ) (n_components n_dimensions seed : Nat)
    (g : GlobalState) : Except PyError TfpDist × GlobalState :=
  let g0 := reset_random_seeds seed g
  let locDraw := npSample2 gen n_components n_dimensions g0
  let loc := locDraw.1.map (fun row => row.map (fun x => x * 10))
  let scaleDraw := npSample2 gen n_components n_dimensions locDraw.2
  let scale := scaleDraw.1
  let probsDraw := npSample2 gen n_dimensions n_components scaleDraw.2
  let probs := probsDraw.1
  let components := (List.range n_components).map (fun i =>
    TfpDist.normal (Tensor.t1 (loc.getD i [])) (Tensor.t1 (scale.getD i [])))
  (Except.ok (TfpDist.mixture (TfpDist.categorical (Tensor.t2 probs)) components),
    probsDraw.2)

/-- Embedding of `MixNormal2`: same parameter draws as `MixNormal1` except
that `probs` is a rank-1 tensor of length components, then builds
`MixtureSameFamily(Categorical(probs), Normal(loc, scale))`. -/
def MixNormal2 (gen : Nat → Nat → ℚ) (n_components n_dimensions seed : Nat)
    (g : GlobalState) : Except PyError TfpDist × GlobalState :=
  let g0 := reset_random_seeds seed g
  let locDraw := npSample2 gen n_components n_dimensions g0
  let loc := locDraw.1.map (fun row => row.map (fun x => x * 10))
  let scaleDraw := npSample2 gen n_components n_dimensions locDraw.2
  let scale := scaleDraw.1
  let probsDraw := npSampleRow gen scaleDraw.2 n_components
  let probs := probsDraw.1
  (Except.ok (TfpDist.mixtureSameFamily (TfpDist.categorical (Tensor.t1 probs))
      (TfpDist.normal (Tensor.t2 loc) (Tensor.t2 scale))),
    probsDraw.2)

/-- Embedding of `MixNormal1_indep`: identical draws and inner construction
to `MixNormal1`, with the result wrapped in
`Independent(·, reinterpreted_batch_ndims = 0)`. -/
def MixNormal1_indep (gen : Nat → Nat → ℚ) (n_components n_dimensions seed : Nat)
    (g : GlobalState) : Except PyError TfpDist × GlobalState :=
  let g0 := reset_random_seeds seed g
  let locDraw := npSample2 gen n_components n_dimensions g0
  let loc := locDraw.1.map (fun row => row.map (fun x => x * 10))
  let scaleDraw := npSample2 gen n_components n_dimensions locDraw.2
  let scale := scaleDraw.1
  let probsDraw := npSample2 gen n_dimensions n_components scaleDraw.2
  let probs := probsDraw.1
  let components := (List.range n_components).map (fun i =>
    TfpDist.normal (Tensor.t1 (loc.getD i [])) (Tensor.t1 (scale.getD i [])))
  (Except.ok (TfpDist.independent
      (TfpDist.mixture (TfpDist.categorical (Tensor.t2 probs)) components) 0),
    probsDraw.2)

/-- Embedding of `MixNormal2_indep`: identical draws and inner construction
to `MixNormal2`, with the result wrapped in
`Independent(·, reinterpreted_batch_ndims = 0)`. -/
def MixNormal2_indep (gen : Nat → Nat → ℚ) (n_components n_dimensions seed : Nat)
    (g : GlobalState) : Except PyError TfpDist × GlobalState :=
  let g0 := reset_random_seeds seed g
  let locDraw := npSample2 gen n_components n_dimensions g0
  let loc := locDraw.1.map (fun row => row.map (fun x => x * 10))
  let scaleDraw := npSample2 gen n_components n_dimensions locDraw.2
  let scale := scaleDraw.1
  let probsDraw := npSampleRow gen scaleDraw.2 n_components
  let probs := probsDraw.1
  (Except.ok (TfpDist.independent
      (TfpDist.mixtureSameFamily (TfpDist.categorical (Tensor.t1 probs))
        (TfpDist.normal (Tensor.t2 loc) (Tensor.t2 scale))) 0),
    probsDraw.2)

/-- Embedding of `MixMultiNormal1`: same draws as `MixNormal2`, components
are `MultivariateNormalDiag(loc[i], scale[i])` mixed by
`Mixture(Categorical(probs), ...)` with a rank-1 `probs` of length
components. -/
def MixMultiNormal1 (gen : Nat → Nat → ℚ) (n_components n_dimensions seed : Nat)
    (g : GlobalState) : Except PyError TfpDist × GlobalState :=
  let g0 := reset_random_seeds seed g
  let locDraw := npSample2 gen n_components n_dimensions g0
  let loc := locDraw.1.map (fun row => row.map (fun x => x * 10))
  let scaleDraw := npSample2 gen n_components n_dimensions locDraw.2
  let scale := scaleDraw.1
  let probsDraw := npSampleRow gen scaleDraw.2 n_components
  let probs := probsDraw.1
  let components := (List.range n_components).map (fun i =>
    TfpDist.multivariateNormalDiag (Tensor.t1 (loc.getD i []))
      (Tensor.t1 (scale.getD i [])))
  (Except.ok (TfpDist.mixture (TfpDist.categorical (Tensor.t1 probs)) components),
    probsDraw.2)

/-- Embedding of `MixMultiNormal2`: same draws as `MixMultiNormal1`, built
as `MixtureSameFamily(Categorical(probs), MultivariateNormalDiag(loc, scale))`. -/
def MixMultiNormal2 (gen : Nat → Nat → ℚ) (n_components n_dimensions seed : Nat)
    (g : GlobalState) : Except PyError TfpDist × GlobalState :=
  let g0 := reset_random_seeds seed g
  let locDraw := npSample2 gen n_components n_dimensions g0
  let loc := locDraw.1.map (fun row => row.map (fun x => x * 10))
  let scaleDraw := npSample2 gen n_components n_dimensions locDraw.2
  let scale := scaleDraw.1
  let probsDraw := npSampleRow gen scaleDraw.2 n_components
  let probs := probsDraw.1
  (Except.ok (TfpDist.mixtureSameFamily (TfpDist.categorical (Tensor.t1 probs))
      (TfpDist.multivariateNormalDiag (Tensor.t2 loc) (Tensor.t2 scale))),
    probsDraw.2)

/-- Embedding of `MixMultiNormal1_indep`.  The Python source annotates the
local variable `components` (`components: List[...]`) but never assigns
it, so the call `components.append(...)` in the loop body (and the later
use of `components` in the `Mixture` constructor) raises
`UnboundLocalError` on every execution, after the three parameter draws
have been made. -/
def MixMultiNormal1_indep (gen : Nat → Nat → ℚ) (n_components n_dimensions seed : Nat)
    (g : GlobalState) : Except PyError TfpDist × GlobalState :=
  let g0 := reset_random_seeds seed g
  let locDraw := npSample2 gen n_components n_dimensions g0
  let scaleDraw := npSample2 gen n_components n_dimensions locDraw.2
  let probsDraw := npSampleRow gen scaleDraw.2 n_components
  (Except.error PyError.unboundLocal, probsDraw.2)

/-- Embedding of `MixMultiNormal2_indep`: identical draws and inner
construction to `MixMultiNormal2`, with the result wrapped in
`Independent(·, reinterpreted_batch_ndims = 0)`. -/
def MixMultiNormal2_indep (gen : Nat → Nat → ℚ) (n_components n_dimensions seed : Nat)
    (g : GlobalState) : Except PyError TfpDist × GlobalState :=
  let g0 := reset_random_seeds seed g
  let locDraw := npSample2 gen n_components n_dimensions g0
  let loc := locDraw.1.map (fun row => row.map (fun x => x * 10))
  let scaleDraw := npSample2 gen n_components n_dimensions locDraw.2
  let scale := scaleDraw.1
  let probsDraw := npSampleRow gen scaleDraw.2 n_components
  let probs := probsDraw.1
  (Except.ok (TfpDist.independent
      (TfpDist.mixtureSameFamily (TfpDist.categorical (Tensor.t1 probs))
        (TfpDist.multivariateNormalDiag (Tensor.t2 loc) (Tensor.t2 scale))) 0),
    probsDraw.2)

/-- Sampling, modelled from the spec: the act of drawing a sample is
delegated to the external distributions library (an abstract primitive
sampler `ps` mapping a distribution object and a source of randomness to
a sampled array).  Per the spec's glossary, `Independent` wrapping
reinterprets batch dimensions as event dimensions "without altering
sampled values", so sampling an `Independent`-wrapped distribution
delegates to the wrapped distribution on the same randomness. -/
def TfpDist.sampleWith (ps : TfpDist → (Nat → ℚ) → List ℚ) :
    TfpDist → (Nat → ℚ) → List ℚ
  | .independent d _, u => TfpDist.sampleWith ps d u
  | d, u => ps d u

/-- The distribution underlying one level of `Independent` wrapping (the
distribution itself when it is not wrapped). -/
def TfpDist.base : TfpDist → TfpDist
  | .independent d _ => d
  | d => d

/-- The scale arrays stored directly at a node: the `scale` rows of a
`Normal`, the `scale_diag` rows of a `MultivariateNormalDiag`. -/
def TfpDist.nodeScales : TfpDist → List (List ℚ)
  | .normal _ s => s.rows
  | .multivariateNormalDiag _ s => s.rows
  | _ => []

/-- The component distributions of a mixture node. -/
def TfpDist.mixtureComponents : TfpDist → List TfpDist
  | .mixture _ comps => comps
  | .mixtureSameFamily _ c => [c]
  | _ => []

/-- All scale rows of a distribution as built by the eight mixture
constructors: unwrap one `Independent` layer, then collect the scale rows
of the node itself and of its mixture components. -/
def TfpDist.scales (d : TfpDist) : List (List ℚ) :=
  d.base.nodeScales ++ (d.base.mixtureComponents.map TfpDist.nodeScales).flatten

/-- Embedding of `transform_data` on well-formed inputs: the data are an
N × D sample matrix and the rotation argument a D × D matrix, so the two
dynamic shape checks of the source (rotation must be 2-D and square) pass
and the function right-multiplies the data by the rotation (`np.dot`). -/
def transform_data {N D : ℕ} (data : Matrix (Fin N) (Fin D) ℚ)
    (rotation : Matrix (Fin D) (Fin D) ℚ) : Matrix (Fin N) (Fin D) ℚ :=
  data * rotation

/-- Embedding of `inverse_transform_data` on well-formed inputs: same
shape checks as `transform_data`, then right-multiplication by the
transpose of the rotation. -/
def inverse_transform_data {N D : ℕ} (data : Matrix (Fin N) (Fin D) ℚ)
    (rotation : Matrix (Fin D) (Fin D) ℚ) : Matrix (Fin N) (Fin D) ℚ :=
  data * rotation.transpose

/-- A matrix is positive definite in the quadratic-form sense: every
nonzero vector has a positive quadratic form.  For symmetric matrices this
is equivalent to all eigenvalues being strictly positive. -/
def posDefQ {n : ℕ} (M : Matrix (Fin n) (Fin n) ℚ) : Prop :=
  ∀ x : Fin n → ℚ, x ≠ 0 → 0 < Matrix.dotProduct x (M.mulVec x)

/-- Embedding of `RandCorr`.  The matrix size is carried at the type level
(`n`); `spdGen` models the external dataset library's SPD generator
`make_spd_matrix`, as a black-box function of the numeric library's
global generator state (seed and position) and of the explicit
`random_state` argument; `npSqrt` models the numeric library's
square root on the diagonal entries (the source takes
`np.sqrt(np.diag(np.diag(V)))`, and the entrywise square root of a
diagonal matrix is the diagonal matrix of square roots, since the square
root of 0 is 0).  The inverse of that diagonal matrix (`np.linalg.inv`)
is the diagonal matrix of reciprocals.  The function first executes
`np.random.seed(0)`, then generates the SPD matrix `V` with the caller's
seed as `random_state`, and returns `Dinv * V * Dinv` together with the
mutated global state. -/
def RandCorr {n : ℕ} (spdGen : Nat → Nat → Nat → Matrix (Fin n) (Fin n) ℚ)
    (npSqrt : ℚ → ℚ) (seed : Nat) (g : GlobalState) :
    Matrix (Fin n) (Fin n) ℚ × GlobalState :=
  let g0 := { g with npSeed := 0, npPos := 0 }
  let V := spdGen g0.npSeed g0.npPos seed
  let Dinv := Matrix.diagonal (fun i => (npSqrt (V i i))⁻¹)
  (Dinv * V * Dinv, g0)

/-- Embedding of `RandCov`: the matrix size is the length of `std`; builds
the correlation matrix with `RandCorr` and rescales it by the diagonal
matrix of standard deviations on both sides. -/
def RandCov {n : ℕ} (spdGen : Nat → Nat → Nat → Matrix (Fin n) (Fin n) ℚ)
    (npSqrt : ℚ → ℚ) (std : Fin n → ℚ) (seed : Nat) (g : GlobalState) :
    Matrix (Fin n) (Fin n) ℚ × GlobalState :=
  let corrg := RandCorr spdGen npSqrt seed g
  let D := Matrix.diagonal std
  (D * corrg.1 * D, corrg.2)

/-- A numeric array of arbitrary rank: its shape together with its
row-major flattened data. -/
structure NArray where
  shape : List Nat
  data : List ℚ
  deriving DecidableEq, Repr

/-- Reinterpret the flattened data of an array as an n × n matrix. -/
def NArray.toMatrix (x : NArray) (n : Nat) : Matrix (Fin n) (Fin n) ℚ :=
  Matrix.of (fun i j => x.data.getD (i.1 * n + j.1) 0)

/-- Validation errors raised by `is_pos_def` itself. -/
inductive NpError where
  | notTwoDimensional
  | notSquare
  deriving DecidableEq, Repr

/-- Embedding of `is_pos_def`.  `npEigvals` models the numeric library's
eigenvalue routine (`np.linalg.eigvals`) as a black box returning the
list of eigenvalues of a square matrix.  The function raises if the input
is not 2-D, then if it is not square, and otherwise returns whether all
eigenvalues are strictly positive (`np.all(np.linalg.eigvals(x) > 0)`). -/
def is_pos_def (npEigvals : (n : Nat) → Matrix (Fin n) (Fin n) ℚ → List ℚ)
    (x : NArray) : Except NpError Bool :=
  if x.shape.length ≠ 2 then Except.error NpError.notTwoDimensional
  else if x.shape.getD 0 0 ≠ x.shape.getD 1 0 then Except.error NpError.notSquare
  else
    Except.ok ((npEigvals (x.shape.getD 0 0) (x.toMatrix (x.shape.getD 0 0))).all
      (fun ev => decide (0 < ev)))

/-- A concrete initial process state used in witnesses. -/
def gState0 : GlobalState :=
  { pythonHashSeed := 0, tfSeed := 0, npSeed := 0, npPos := 0, pySeed := 0 }

/-- An admissible instance of the numeric library's generator that always
draws 0: the value 0 lies in the half-open draw range `[0,1)`. -/
def zeroGen : Nat → Nat → ℚ := fun _ _ => 0

/-- An admissible instance of the numeric library's generator that always
draws 1/2. -/
def halfGen : Nat → Nat → ℚ := fun _ _ => 1 / 2

/-- A concrete instance of the eigenvalue routine that is exact on
diagonal matrices: it reads off the diagonal. -/
def diagEigvals : (n : Nat) → Matrix (Fin n) (Fin n) ℚ → List ℚ :=
  fun n M => (List.finRange n).map (fun i => M i i)

/-- A concrete SPD-generator instance returning the 1 × 1 identity matrix,
used in witnesses. -/
def oneGen1 : Nat → Nat → Nat → Matrix (Fin 1) (Fin 1) ℚ := fun _ _ _ => 1

/-- The scale rows of a constructor's result: the scale arrays stored in
the returned distribution, or nothing when the constructor raised. -/
def scalesOfResult : Except PyError TfpDist → List (List ℚ)
  | .ok dist => dist.scales
  | .error _ => []

/-- C1: for identical underlying RNG draws, `MixNormal1_indep`,
`MixNormal2_indep` and `MixMultiNormal2_indep` return exactly the
`Independent(·, 0)` wrapping of the distribution their non-independent
counterparts return (same drawn parameter arrays, so identical sample
arrays, since sampling through an `Independent` wrapper delegates to the
wrapped distribution unchanged).  The fourth pair is broken in the code:
`MixMultiNormal1_indep` raises `UnboundLocalError` on every call because
its `components` list is annotated but never initialized, so it never
produces samples at all — contradicting its own docstring, which promises
samples identical to `MixMultiNormal1`. -/
theorem independent_pairs_identical_samples (gen : Nat → Nat → ℚ)
    (n d s : Nat) (g : GlobalState) :
    (MixNormal1_indep gen n d s g).1
        = Except.map (fun dist => TfpDist.independent dist 0) (MixNormal1 gen n d s g).1 ∧
    (MixNormal2_indep gen n d s g).1
        = Except.map (fun dist => TfpDist.independent dist 0) (MixNormal2 gen n d s g).1 ∧
    (MixMultiNormal2_indep gen n d s g).1
        = Except.map (fun dist => TfpDist.independent dist 0) (MixMultiNormal2 gen n d s g).1 ∧
    (MixMultiNormal1_indep gen n d s g).1 = Except.error PyError.unboundLocal ∧
    (∀ ps dist u, TfpDist.sampleWith ps (TfpDist.independent dist 0) u
        = TfpDist.sampleWith ps dist u) :=
  ⟨rfl, rfl, rfl, rfl, fun _ _ _ => rfl⟩

/-- C2: seven of the eight mixture constructors contain no raise of their
own — their embedded bodies always return a library-constructed
distribution, so any failure in a real run originates inside the external
library constructors.  The eighth, `MixMultiNormal1_indep`, raises
`UnboundLocalError` from its own body on every call (its local
`components` is annotated but never assigned), violating the claim. -/
theorem constructors_raise_no_own_errors (gen : Nat → Nat → ℚ)
    (n d s : Nat) (g : GlobalState) :
    (∃ dist, (MixNormal1 gen n d s g).1 = Except.ok dist) ∧
    (∃ dist, (MixNormal2 gen n d s g).1 = Except.ok dist) ∧
    (∃ dist, (MixNormal1_indep gen n d s g).1 = Except.ok dist) ∧
    (∃ dist, (MixNormal2_indep gen n d s g).1 = Except.ok dist) ∧
    (∃ dist, (MixMultiNormal1 gen n d s g).1 = Except.ok dist) ∧
    (∃ dist, (MixMultiNormal2 gen n d s g).1 = Except.ok dist) ∧
    (∃ dist, (MixMultiNormal2_indep gen n d s g).1 = Except.ok dist) ∧
    (MixMultiNormal1_indep gen n d s g).1 = Except.error PyError.unboundLocal :=
  ⟨⟨_, rfl⟩, ⟨_, rfl⟩, ⟨_, rfl⟩, ⟨_, rfl⟩, ⟨_, rfl⟩, ⟨_, rfl⟩, ⟨_, rfl⟩, rfl⟩

/-- C3: every mixture constructor begins by resetting the global random
state deterministically from its seed, so two calls with identical
arguments from arbitrary (possibly different) prior process states return
identical results — in particular identical location, scale and
mixing-weight parameter arrays, which are stored inside the returned
distribution object (and the one constructor that raises does so
identically on both calls). -/
theorem constructors_reproducible_for_fixed_seed (gen : Nat → Nat → ℚ)
    (n d s : Nat) (g₁ g₂ : GlobalState) :
    (MixNormal1 gen n d s g₁).1 = (MixNormal1 gen n d s g₂).1 ∧
    (MixNormal2 gen n d s g₁).1 = (MixNormal2 gen n d s g₂).1 ∧
    (MixNormal1_indep gen n d s g₁).1 = (MixNormal1_indep gen n d s g₂).1 ∧
    (MixNormal2_indep gen n d s g₁).1 = (MixNormal2_indep gen n d s g₂).1 ∧
    (MixMultiNormal1 gen n d s g₁).1 = (MixMultiNormal1 gen n d s g₂).1 ∧
    (MixMultiNormal2 gen n d s g₁).1 = (MixMultiNormal2 gen n d s g₂).1 ∧
    (MixMultiNormal1_indep gen n d s g₁).1 = (MixMultiNormal1_indep gen n d s g₂).1 ∧
    (MixMultiNormal2_indep gen n d s g₁).1 = (MixMultiNormal2_indep gen n d s g₂).1 :=
  ⟨rfl, rfl, rfl, rfl, rfl, rfl, rfl, rfl⟩

/-- C4: for any sample matrix and any orthonormal square rotation matrix
(in particular the eigenvector matrix produced by `rot_matrix`, which is
orthonormal because it comes from the eigendecomposition of a real
symmetric covariance matrix), transforming and then inverse-transforming
returns the original data.  Arithmetic is exact rational, so equality is
exact — a fortiori within floating-point tolerance. -/
theorem transform_inverse_transform_roundtrip {N D : ℕ}
    (data : Matrix (Fin N) (Fin D) ℚ) (rotation : Matrix (Fin D) (Fin D) ℚ)
    (horth : rotation.transpose * rotation = 1) :
    inverse_transform_data (transform_data data rotation) rotation = data := by
  unfold transform_data inverse_transform_data
  rw [Matrix.mul_assoc, Matrix.mul_eq_one_comm.mp horth, Matrix.mul_one]

/-- Witness for C4 at a concrete input: a 90-degree rotation matrix is
orthonormal, and the round trip on a concrete 2 × 2 data matrix is the
identity. -/
theorem transform_inverse_transform_roundtrip_witness :
    ((Matrix.of ![![(0 : ℚ), 1], ![-1, 0]]).transpose
        * Matrix.of ![![(0 : ℚ), 1], ![-1, 0]] = 1) ∧
    inverse_transform_data
        (transform_data (Matrix.of ![![(1 : ℚ), 2], ![3, 4]])
          (Matrix.of ![![(0 : ℚ), 1], ![-1, 0]]))
        (Matrix.of ![![(0 : ℚ), 1], ![-1, 0]])
      = Matrix.of ![![(1 : ℚ), 2], ![3, 4]] :=
  ⟨by ext i j; fin_cases i <;> fin_cases j <;>
      simp [Matrix.mul_apply, Fin.sum_univ_two, Matrix.one_apply, Matrix.transpose_apply, Matrix.vecHead, Matrix.vecTail],
    transform_inverse_transform_roundtrip
    (Matrix.of ![![(1 : ℚ), 2], ![3, 4]]) (Matrix.of ![![(0 : ℚ), 1], ![-1, 0]])
    (by ext i j; fin_cases i <;> fin_cases j <;>
      simp [Matrix.mul_apply, Fin.sum_univ_two, Matrix.one_apply, Matrix.transpose_apply, Matrix.vecHead, Matrix.vecTail])⟩

/-- C10: `RandCorr` overwrites the numeric library's global generator
state with seed 0 (position 0) as a side effect, and the SPD generator
uses its explicit `random_state` argument rather than drawing from the
global generator, so the state left behind is the reset-to-0 state
whatever the incoming state was; it does not depend on the caller's seed.
`RandCov` invokes `RandCorr` and performs no further draws, so it leaves
the same state behind, and subsequent draws from the global generator are
identical regardless of the seed argument. -/
theorem randCorr_clobbers_global_rng_state {n : ℕ}
    (spdGen : Nat → Nat → Nat → Matrix (Fin n) (Fin n) ℚ) (npSqrt : ℚ → ℚ)
    (seed : Nat) (g : GlobalState) (std : Fin n → ℚ) :
    (RandCorr spdGen npSqrt seed g).2 = { g with npSeed := 0, npPos := 0 } ∧
    (RandCov spdGen npSqrt std seed g).2 = { g with npSeed := 0, npPos := 0 } ∧
    (∀ s₁ s₂ : Nat, (RandCorr spdGen npSqrt s₁ g).2 = (RandCorr spdGen npSqrt s₂ g).2) ∧
    (∀ (gen : Nat → Nat → ℚ) (k s₁ s₂ : Nat),
      npSampleRow gen (RandCorr spdGen npSqrt s₁ g).2 k
        = npSampleRow gen (RandCorr spdGen npSqrt s₂ g).2 k) :=
  ⟨rfl, rfl, fun _ _ => rfl, fun _ _ _ _ => rfl⟩

/-- Every value drawn from the global generator lies in the draw range
`[0,1)`, as soon as the abstract generator respects that range. -/
theorem npSampleRow_mem_range (gen : Nat → Nat → ℚ)
    (hgen : ∀ s i, 0 ≤ gen s i ∧ gen s i < 1) (g : GlobalState) (d : Nat) :
    ∀ e ∈ (npSampleRow gen g d).1, 0 ≤ e ∧ e < 1 := by
  intro e he
  simp only [npSampleRow, List.mem_map, List.mem_range] at he
  obtain ⟨j, _, rfl⟩ := he
  exact hgen _ _

/-- Every entry of a 2-D batch of draws lies in `[0,1)`. -/
theorem npSample2_mem_range (gen : Nat → Nat → ℚ)
    (hgen : ∀ s i, 0 ≤ gen s i ∧ gen s i < 1) :
    ∀ (n d : Nat) (g : GlobalState), ∀ row ∈ (npSample2 gen n d g).1,
      ∀ e ∈ row, 0 ≤ e ∧ e < 1 := by
  intro n
  induction n with
  | zero => intro d g row hrow; simp [npSample2] at hrow
  | succ n ih =>
    intro d g row hrow
    simp only [npSample2, List.mem_cons] at hrow
    rcases hrow with h | h
    · subst h; exact npSampleRow_mem_range gen hgen _ _
    · exact ih d _ row h

/-- A 2-D batch of draws has exactly `n` rows. -/
theorem npSample2_length (gen : Nat → Nat → ℚ) :
    ∀ (n d : Nat) (g : GlobalState), (npSample2 gen n d g).1.length = n := by
  intro n
  induction n with
  | zero => intro d g; simp [npSample2]
  | succ n ih => intro d g; simp [npSample2, ih]

/-- Every entry of every indexed row of a 2-D batch of draws lies in
`[0,1)` (an out-of-range index yields the empty row). -/
theorem npSample2_getD_mem_range (gen : Nat → Nat → ℚ)
    (hgen : ∀ s i, 0 ≤ gen s i ∧ gen s i < 1) (n d : Nat) (g : GlobalState) :
    ∀ i, ∀ e ∈ (npSample2 gen n d g).1.getD i [], 0 ≤ e ∧ e < 1 := by
  intro i e he
  by_cases h : i < (npSample2 gen n d g).1.length
  · rw [List.getD_eq_getElem _ _ h] at he
    exact npSample2_mem_range gen hgen n d g _ (List.getElem_mem h) e he
  · rw [List.getD_eq_default _ _ (Nat.le_of_not_lt h)] at he
    simp at he

/-- C9 (amended): every entry of the drawn scale array of each of the
eight mixture constructors lies in the draw range `[0,1)` — nonnegative
and strictly below 1 — whenever the underlying generator respects the
range contract of uniform draws.  Strict positivity is not guaranteed: a
draw of exactly 0 is admissible and yields a zero scale entry. -/
theorem mixture_scales_in_unit_range (gen : Nat → Nat → ℚ)
    (hgen : ∀ s i, 0 ≤ gen s i ∧ gen s i < 1) (n d s : Nat) (g : GlobalState) :
    (∀ row ∈ scalesOfResult (MixNormal1 gen n d s g).1, ∀ e ∈ row, 0 ≤ e ∧ e < 1) ∧
    (∀ row ∈ scalesOfResult (MixNormal2 gen n d s g).1, ∀ e ∈ row, 0 ≤ e ∧ e < 1) ∧
    (∀ row ∈ scalesOfResult (MixNormal1_indep gen n d s g).1, ∀ e ∈ row, 0 ≤ e ∧ e < 1) ∧
    (∀ row ∈ scalesOfResult (MixNormal2_indep gen n d s g).1, ∀ e ∈ row, 0 ≤ e ∧ e < 1) ∧
    (∀ row ∈ scalesOfResult (MixMultiNormal1 gen n d s g).1, ∀ e ∈ row, 0 ≤ e ∧ e < 1) ∧
    (∀ row ∈ scalesOfResult (MixMultiNormal2 gen n d s g).1, ∀ e ∈ row, 0 ≤ e ∧ e < 1) ∧
    (∀ row ∈ scalesOfResult (MixMultiNormal1_indep gen n d s g).1, ∀ e ∈ row, 0 ≤ e ∧ e < 1) ∧
    (∀ row ∈ scalesOfResult (MixMultiNormal2_indep gen n d s g).1, ∀ e ∈ row, 0 ≤ e ∧ e < 1) := by
  refine ⟨?_, ?_, ?_, ?_, ?_, ?_, ?_, ?_⟩
  · intro row hrow e he
    simp only [scalesOfResult, MixNormal1, TfpDist.scales, TfpDist.base, TfpDist.nodeScales,
      TfpDist.mixtureComponents, Tensor.rows, List.map_map, List.nil_append,
      List.mem_flatten, List.mem_map, List.mem_range, Function.comp] at hrow
    obtain ⟨l, ⟨i, hi, rfl⟩, hrl⟩ := hrow
    simp only [List.mem_singleton] at hrl
    subst hrl
    exact npSample2_getD_mem_range gen hgen _ _ _ i e he
  · intro row hrow e he
    simp only [scalesOfResult, MixNormal2, TfpDist.scales, TfpDist.base, TfpDist.nodeScales,
      TfpDist.mixtureComponents, Tensor.rows, List.map, List.flatten, List.nil_append,
      List.append_nil] at hrow
    exact npSample2_mem_range gen hgen _ _ _ row hrow e he
  · intro row hrow e he
    simp only [scalesOfResult, MixNormal1_indep, TfpDist.scales, TfpDist.base,
      TfpDist.nodeScales, TfpDist.mixtureComponents, Tensor.rows, List.map_map,
      List.nil_append, List.mem_flatten, List.mem_map, List.mem_range, Function.comp] at hrow
    obtain ⟨l, ⟨i, hi, rfl⟩, hrl⟩ := hrow
    simp only [List.mem_singleton] at hrl
    subst hrl
    exact npSample2_getD_mem_range gen hgen _ _ _ i e he
  · intro row hrow e he
    simp only [scalesOfResult, MixNormal2_indep, TfpDist.scales, TfpDist.base,
      TfpDist.nodeScales, TfpDist.mixtureComponents, Tensor.rows, List.map, List.flatten,
      List.nil_append, List.append_nil] at hrow
    exact npSample2_mem_range gen hgen _ _ _ row hrow e he
  · intro row hrow e he
    simp only [scalesOfResult, MixMultiNormal1, TfpDist.scales, TfpDist.base,
      TfpDist.nodeScales, TfpDist.mixtureComponents, Tensor.rows, List.map_map,
      List.nil_append, List.mem_flatten, List.mem_map, List.mem_range, Function.comp] at hrow
    obtain ⟨l, ⟨i, hi, rfl⟩, hrl⟩ := hrow
    simp only [List.mem_singleton] at hrl
    subst hrl
    exact npSample2_getD_mem_range gen hgen _ _ _ i e he
  · intro row hrow e he
    simp only [scalesOfResult, MixMultiNormal2, TfpDist.scales, TfpDist.base,
      TfpDist.nodeScales, TfpDist.mixtureComponents, Tensor.rows, List.map, List.flatten,
      List.nil_append, List.append_nil] at hrow
    exact npSample2_mem_range gen hgen _ _ _ row hrow e he
  · intro row hrow
    simp [scalesOfResult, MixMultiNormal1_indep] at hrow
  · intro row hrow e he
    simp only [scalesOfResult, MixMultiNormal2_indep, TfpDist.scales, TfpDist.base,
      TfpDist.nodeScales, TfpDist.mixtureComponents, Tensor.rows, List.map, List.flatten,
      List.nil_append, List.append_nil] at hrow
    exact npSample2_mem_range gen hgen _ _ _ row hrow e he

/-- Witness for C9 (amended) at a concrete admissible generator (constant
1/2) and concrete arguments. -/
theorem mixture_scales_in_unit_range_witness :
    (∀ s i, 0 ≤ halfGen s i ∧ halfGen s i < 1) ∧
    (∀ row ∈ scalesOfResult (MixNormal1 halfGen 1 1 0 gState0).1,
      ∀ e ∈ row, 0 ≤ e ∧ e < 1) := by
  have hg : ∀ s i, 0 ≤ halfGen s i ∧ halfGen s i < 1 := by
    intro s i; constructor <;> norm_num [halfGen]
  exact ⟨hg, (mixture_scales_in_unit_range halfGen hg 1 1 0 gState0).1⟩

/-- Counterexample to C9 as stated: the generator drawing the constant 0
respects the `[0,1)` draw range, yet the scale array drawn by
`MixNormal1` with one component and one dimension contains the entry 0,
which is not strictly positive. -/
theorem mixture_scales_not_strictly_positive :
    (∀ s i, 0 ≤ zeroGen s i ∧ zeroGen s i < 1) ∧
    ¬ (∀ row ∈ scalesOfResult (MixNormal1 zeroGen 1 1 0 gState0).1,
        ∀ e ∈ row, 0 < e) := by
  constructor
  · intro s i; constructor <;> norm_num [zeroGen]
  · intro h
    have hm : scalesOfResult (MixNormal1 zeroGen 1 1 0 gState0).1 = [[(0 : ℚ)]] := rfl
    have h0 := h [(0 : ℚ)] (by rw [hm]; exact List.mem_singleton.mpr rfl) (0 : ℚ)
      (List.mem_singleton.mpr rfl)
    exact absurd h0 (lt_irrefl 0)

/-- The dot product of a nonzero rational vector with itself is positive. -/
theorem dotProduct_self_pos {n : ℕ} {x : Fin n → ℚ} (hx : x ≠ 0) :
    0 < Matrix.dotProduct x x := by
  have h0 : 0 ≤ Matrix.dotProduct x x := by
    simp only [Matrix.dotProduct]
    exact Finset.sum_nonneg fun i _ => mul_self_nonneg (x i)
  rcases h0.lt_or_eq with h | h
  · exact h
  · exact absurd (Matrix.dotProduct_self_eq_zero.mp h.symm) hx

/-- The identity matrix is positive definite. -/
theorem posDefQ_one {n : ℕ} : posDefQ (1 : Matrix (Fin n) (Fin n) ℚ) := by
  intro x hx
  rw [Matrix.one_mulVec]
  exact dotProduct_self_pos hx

/-- A positive definite matrix has positive diagonal entries. -/
theorem posDefQ_diag_pos {n : ℕ} {M : Matrix (Fin n) (Fin n) ℚ}
    (hM : posDefQ M) (i : Fin n) : 0 < M i i := by
  have hne : (Pi.single i 1 : Fin n → ℚ) ≠ 0 := by
    intro h0
    have := congrFun h0 i
    simp [Pi.single_apply] at this
  have h := hM (Pi.single i 1) hne
  rw [Matrix.mulVec_single, show (fun k => M k i * 1) = fun k => M k i from
    funext fun k => mul_one (M k i)] at h
  rwa [Matrix.single_dotProduct, one_mul] at h

/-- Quadratic form of a two-sided diagonal congruence: conjugating a
matrix by a diagonal matrix rescales the argument vector entrywise. -/
theorem dotProduct_diagonal_congruence {n : ℕ} (a : Fin n → ℚ)
    (V : Matrix (Fin n) (Fin n) ℚ) (x : Fin n → ℚ) :
    Matrix.dotProduct x ((Matrix.diagonal a * V * Matrix.diagonal a).mulVec x)
      = Matrix.dotProduct (fun i => a i * x i)
          (V.mulVec (fun i => a i * x i)) := by
  have h1 : (Matrix.diagonal a * V * Matrix.diagonal a).mulVec x
      = (Matrix.diagonal a).mulVec (V.mulVec ((Matrix.diagonal a).mulVec x)) := by
    simp [Matrix.mulVec_mulVec, Matrix.mul_assoc]
  have h2 : (Matrix.diagonal a).mulVec x = fun i => a i * x i :=
    funext fun k => Matrix.mulVec_diagonal a x k
  rw [h1, h2]
  simp only [Matrix.dotProduct]
  refine Finset.sum_congr rfl fun k _ => ?_
  rw [Matrix.mulVec_diagonal]
  ring

/-- Entry formula for the matrix returned by `RandCorr`. -/
theorem RandCorr_apply {n : ℕ} (spdGen : Nat → Nat → Nat → Matrix (Fin n) (Fin n) ℚ)
    (npSqrt : ℚ → ℚ) (seed : Nat) (g : GlobalState) (i j : Fin n) :
    (RandCorr spdGen npSqrt seed g).1 i j
      = (npSqrt (spdGen 0 0 seed i i))⁻¹ * spdGen 0 0 seed i j
          * (npSqrt (spdGen 0 0 seed j j))⁻¹ := by
  have h : (RandCorr spdGen npSqrt seed g).1
      = Matrix.diagonal (fun k => (npSqrt (spdGen 0 0 seed k k))⁻¹)
          * spdGen 0 0 seed
          * Matrix.diagonal (fun k => (npSqrt (spdGen 0 0 seed k k))⁻¹) := rfl
  rw [h, Matrix.mul_diagonal, Matrix.diagonal_mul]

/-- The matrix returned by `RandCorr` has unit diagonal when the SPD
generator's output is positive definite and the square root is exact on
its diagonal entries. -/
theorem RandCorr_diag_one {n : ℕ} (spdGen : Nat → Nat → Nat → Matrix (Fin n) (Fin n) ℚ)
    (npSqrt : ℚ → ℚ) (seed : Nat) (g : GlobalState)
    (hpos : posDefQ (spdGen 0 0 seed))
    (hsqrt : ∀ i, npSqrt (spdGen 0 0 seed i i) ^ 2 = spdGen 0 0 seed i i)
    (i : Fin n) : (RandCorr spdGen npSqrt seed g).1 i i = 1 := by
  rw [RandCorr_apply]
  have hii := posDefQ_diag_pos hpos i
  have hs := hsqrt i
  have hsne : npSqrt (spdGen 0 0 seed i i) ≠ 0 := by
    intro h0
    rw [h0, zero_pow (by norm_num : (2 : ℕ) ≠ 0)] at hs
    rw [← hs] at hii
    exact lt_irrefl 0 hii
  set s := npSqrt (spdGen 0 0 seed i i) with hsdef
  rw [← hs]
  calc s⁻¹ * s ^ 2 * s⁻¹ = (s⁻¹ * s) * (s * s⁻¹) := by ring
    _ = 1 := by rw [inv_mul_cancel₀ hsne, mul_inv_cancel₀ hsne, one_mul]

/-- The matrix returned by `RandCorr` is positive definite when the SPD
generator's output is, provided the square roots of its diagonal entries
are positive. -/
theorem RandCorr_posDefQ {n : ℕ} (spdGen : Nat → Nat → Nat → Matrix (Fin n) (Fin n) ℚ)
    (npSqrt : ℚ → ℚ) (seed : Nat) (g : GlobalState)
    (hpos : posDefQ (spdGen 0 0 seed))
    (hsqrtpos : ∀ i, 0 < npSqrt (spdGen 0 0 seed i i)) :
    posDefQ (RandCorr spdGen npSqrt seed g).1 := by
  intro x hx
  show 0 < Matrix.dotProduct x ((Matrix.diagonal _ * spdGen 0 0 seed
    * Matrix.diagonal _).mulVec x)
  rw [dotProduct_diagonal_congruence]
  apply hpos
  obtain ⟨i, hi⟩ := Function.ne_iff.mp hx
  intro hy0
  have hyi := congrFun hy0 i
  simp only [Pi.zero_apply, mul_eq_zero] at hyi
  rcases hyi with h | h
  · exact absurd h (inv_ne_zero (ne_of_gt (hsqrtpos i)))
  · exact hi h

/-- A positive definite matrix has only positive eigenvalues. -/
theorem posDefQ_eigenvalue_pos {n : ℕ} {M : Matrix (Fin n) (Fin n) ℚ}
    (hM : posDefQ M) (mu : ℚ) (x : Fin n → ℚ) (hx : x ≠ 0)
    (hev : M.mulVec x = mu • x) : 0 < mu := by
  have h1 := hM x hx
  rw [hev, Matrix.dotProduct_smul, smul_eq_mul] at h1
  have h2 := dotProduct_self_pos hx
  by_contra hmu
  push_neg at hmu
  exact absurd h1 (not_lt.mpr (mul_nonpos_of_nonpos_of_nonneg hmu h2.le))

/-- C5: for every matrix size (carried as the type-level dimension), seed
and incoming process state, `RandCorr` returns a symmetric matrix with
all diagonal entries equal to 1 and with positive eigenvalues, under the
external SPD generator's contract (its output is a symmetric positive
definite matrix) and exactness of the modelled square root on the
diagonal entries.  Eigenvalue positivity is stated both as positive
definiteness of the quadratic form (equivalent, for symmetric matrices,
to all eigenvalues being positive) and directly for every rational
eigenvalue of the returned matrix. -/
theorem RandCorr_is_correlation_matrix {n : ℕ}
    (spdGen : Nat → Nat → Nat → Matrix (Fin n) (Fin n) ℚ) (npSqrt : ℚ → ℚ)
    (seed : Nat) (g : GlobalState)
    (hsym : ∀ i j, spdGen 0 0 seed i j = spdGen 0 0 seed j i)
    (hpos : posDefQ (spdGen 0 0 seed))
    (hsqrt : ∀ i, npSqrt (spdGen 0 0 seed i i) ^ 2 = spdGen 0 0 seed i i
      ∧ 0 < npSqrt (spdGen 0 0 seed i i)) :
    (∀ i j, (RandCorr spdGen npSqrt seed g).1 i j
        = (RandCorr spdGen npSqrt seed g).1 j i) ∧
    (∀ i, (RandCorr spdGen npSqrt seed g).1 i i = 1) ∧
    posDefQ (RandCorr spdGen npSqrt seed g).1 ∧
    (∀ (mu : ℚ) (x : Fin n → ℚ), x ≠ 0 →
      (RandCorr spdGen npSqrt seed g).1.mulVec x = mu • x → 0 < mu) := by
  have hsq := fun i => (hsqrt i).1
  have hsp := fun i => (hsqrt i).2
  refine ⟨?_, fun i => RandCorr_diag_one spdGen npSqrt seed g hpos hsq i,
    RandCorr_posDefQ spdGen npSqrt seed g hpos hsp,
    fun mu x hx hev => posDefQ_eigenvalue_pos
      (RandCorr_posDefQ spdGen npSqrt seed g hpos hsp) mu x hx hev⟩
  intro i j
  rw [RandCorr_apply, RandCorr_apply, hsym i j]
  ring

/-- Witness for C5 at a concrete instance: SPD generator returning the
1 × 1 identity, exact square root, seed 0. -/
theorem RandCorr_is_correlation_matrix_witness :
    posDefQ (oneGen1 0 0 0) ∧
    (∀ i, (RandCorr oneGen1 id 0 gState0).1 i i = 1) ∧
    posDefQ (RandCorr oneGen1 id 0 gState0).1 := by
  have h := RandCorr_is_correlation_matrix oneGen1 id 0 gState0
    (fun i j => by rw [Subsingleton.elim i j])
    posDefQ_one
    (fun i => ⟨by simp [oneGen1, Matrix.one_apply], by simp [oneGen1, Matrix.one_apply]⟩)
  exact ⟨posDefQ_one, h.2.1, h.2.2.1⟩

/-- C6: `RandCov` returns exactly `diag(std) · RandCorr(len(std), seed) ·
diag(std)` (the matrix size is the length of `std`), and under the SPD
generator's contract with exact square roots its diagonal entries are the
squared standard deviations. -/
theorem RandCov_diag_squared_std {n : ℕ}
    (spdGen : Nat → Nat → Nat → Matrix (Fin n) (Fin n) ℚ) (npSqrt : ℚ → ℚ)
    (std : Fin n → ℚ) (seed : Nat) (g : GlobalState)
    (hpos : posDefQ (spdGen 0 0 seed))
    (hsqrt : ∀ i, npSqrt (spdGen 0 0 seed i i) ^ 2 = spdGen 0 0 seed i i) :
    (RandCov spdGen npSqrt std seed g).1
        = Matrix.diagonal std * (RandCorr spdGen npSqrt seed g).1
            * Matrix.diagonal std ∧
    (∀ i, (RandCov spdGen npSqrt std seed g).1 i i = std i ^ 2) := by
  refine ⟨rfl, fun i => ?_⟩
  have h : (RandCov spdGen npSqrt std seed g).1 i i
      = (Matrix.diagonal std * (RandCorr spdGen npSqrt seed g).1
          * Matrix.diagonal std) i i := rfl
  rw [h, Matrix.mul_diagonal, Matrix.diagonal_mul,
    RandCorr_diag_one spdGen npSqrt seed g hpos hsqrt i]
  ring

/-- Witness for C6 at a concrete instance: unit SPD generator and constant
standard deviation 3 in one dimension. -/
theorem RandCov_diag_squared_std_witness :
    posDefQ (oneGen1 0 0 0) ∧
    (∀ i, (RandCov oneGen1 id (fun _ => 3) 0 gState0).1 i i = (3 : ℚ) ^ 2) := by
  have h := RandCov_diag_squared_std oneGen1 id (fun _ => 3) 0 gState0 posDefQ_one
    (fun i => by simp [oneGen1, Matrix.one_apply])
  exact ⟨posDefQ_one, h.2⟩

/-- C8: the matrix returned by `RandCorr` is jointly determined by the two
seeds alone — the constant 0 installed in the numeric library's global
generator immediately before SPD generation, and the caller's seed passed
separately as the SPD generator's `random_state`.  Formally, the output
depends on the SPD generator only through its value at global generator
state (seed 0, position 0) with `random_state = seed`, and on nothing
else of the incoming process state; moreover each of the two seed inputs
can influence the result: there are admissible generator instances under
which two caller seeds give different matrices, and instances whose
output at global seed 0 differs from their output at another global
seed. -/
theorem RandCorr_jointly_determined_by_two_seeds {n : ℕ} (npSqrt : ℚ → ℚ)
    (seed : Nat) (g g' : GlobalState)
    (spdGen spdGen' : Nat → Nat → Nat → Matrix (Fin n) (Fin n) ℚ)
    (hagree : spdGen 0 0 seed = spdGen' 0 0 seed) :
    (RandCorr spdGen npSqrt seed g).1 = (RandCorr spdGen' npSqrt seed g').1 ∧
    (∃ (G : Nat → Nat → Nat → Matrix (Fin 1) (Fin 1) ℚ) (s₁ s₂ : Nat),
      (RandCorr G id s₁ gState0).1 ≠ (RandCorr G id s₂ gState0).1) ∧
    (∃ (G : Nat → Nat → Nat → Matrix (Fin 1) (Fin 1) ℚ) (s : Nat),
      G 0 0 s ≠ G 1 0 s) := by
  refine ⟨?_, ?_, ?_⟩
  · have h1 : (RandCorr spdGen npSqrt seed g).1
        = Matrix.diagonal (fun k => (npSqrt (spdGen 0 0 seed k k))⁻¹)
            * spdGen 0 0 seed
            * Matrix.diagonal (fun k => (npSqrt (spdGen 0 0 seed k k))⁻¹) := rfl
    have h2 : (RandCorr spdGen' npSqrt seed g').1
        = Matrix.diagonal (fun k => (npSqrt (spdGen' 0 0 seed k k))⁻¹)
            * spdGen' 0 0 seed
            * Matrix.diagonal (fun k => (npSqrt (spdGen' 0 0 seed k k))⁻¹) := rfl
    rw [h1, h2, hagree]
  · refine ⟨fun _ _ rs => Matrix.of ![![(rs : ℚ) + 1]], 0, 1, fun h => ?_⟩
    have h00 := congrFun (congrFun h 0) 0
    rw [RandCorr_apply, RandCorr_apply] at h00
    norm_num [Matrix.of_apply, Matrix.cons_val_zero] at h00
  · refine ⟨fun a _ _ => Matrix.of ![![(a : ℚ)]], 0, fun h => ?_⟩
    have h00 := congrFun (congrFun h 0) 0
    norm_num [Matrix.of_apply, Matrix.cons_val_zero] at h00

/-- Witness for C8: two distinct admissible SPD generators that agree at
global generator state (0,0) with caller seed 0 produce the same
correlation matrix, from arbitrary distinct incoming process states. -/
theorem RandCorr_jointly_determined_by_two_seeds_witness :
    (oneGen1 0 0 0
        = (fun (a : Nat) (_ : Nat) (_ : Nat) =>
            if a = 0 then (1 : Matrix (Fin 1) (Fin 1) ℚ) else Matrix.of ![![2]]) 0 0 0) ∧
    (RandCorr oneGen1 id 0 gState0).1
      = (RandCorr (fun (a : Nat) (_ : Nat) (_ : Nat) =>
          if a = 0 then (1 : Matrix (Fin 1) (Fin 1) ℚ) else Matrix.of ![![2]]) id 0
          { pythonHashSeed := 1, tfSeed := 2, npSeed := 3, npPos := 4, pySeed := 5 }).1 :=
  ⟨rfl, (RandCorr_jointly_determined_by_two_seeds id 0 gState0
    { pythonHashSeed := 1, tfSeed := 2, npSeed := 3, npPos := 4, pySeed := 5 }
    oneGen1 _ rfl).1⟩

/-- C7: `is_pos_def` raises a validation error exactly when its input is
not 2-D or not square; on every square 2-D input it returns `true`
exactly when all eigenvalues (as returned by the numeric library's
eigenvalue routine) are strictly positive.  Under that routine's
correctness on diagonal matrices, the input [[1,0],[0,-1]] yields
`false`, the 2 × 2 identity yields `true`, and the 2 × 3 input
[[1,2,3],[4,5,6]] raises. -/
theorem is_pos_def_spec (npEigvals : (n : Nat) → Matrix (Fin n) (Fin n) ℚ → List ℚ)
    (hdiag : ∀ (n : Nat) (dv : Fin n → ℚ),
      npEigvals n (Matrix.diagonal dv) = (List.finRange n).map dv) :
    (∀ x : NArray, (∃ e, is_pos_def npEigvals x = Except.error e) ↔
      (x.shape.length ≠ 2 ∨ x.shape.getD 0 0 ≠ x.shape.getD 1 0)) ∧
    (∀ x : NArray, x.shape.length = 2 → x.shape.getD 0 0 = x.shape.getD 1 0 →
      (is_pos_def npEigvals x = Except.ok true ↔
        ∀ ev ∈ npEigvals (x.shape.getD 0 0) (x.toMatrix (x.shape.getD 0 0)), 0 < ev)) ∧
    is_pos_def npEigvals ⟨[2, 2], [1, 0, 0, -1]⟩ = Except.ok false ∧
    is_pos_def npEigvals ⟨[2, 2], [1, 0, 0, 1]⟩ = Except.ok true ∧
    is_pos_def npEigvals ⟨[2, 3], [1, 2, 3, 4, 5, 6]⟩ = Except.error NpError.notSquare := by
  refine ⟨?_, ?_, ?_, ?_, ?_⟩
  · intro x
    constructor
    · rintro ⟨e, he⟩
      unfold is_pos_def at he
      split_ifs at he with h1 h2
      · exact Or.inl h1
      · exact Or.inr h2
    · intro hor
      unfold is_pos_def
      split_ifs with h1 h2
      · exact ⟨_, rfl⟩
      · exact ⟨_, rfl⟩
      · rcases hor with h | h
        · exact absurd h h1
        · exact absurd h h2
  · intro x h2 hsq
    unfold is_pos_def
    rw [if_neg (not_ne_iff.mpr h2), if_neg (not_ne_iff.mpr hsq)]
    simp only [Except.ok.injEq, List.all_eq_true, decide_eq_true_eq]
  · have hm : (⟨[2, 2], [1, 0, 0, -1]⟩ : NArray).toMatrix 2
        = Matrix.diagonal ![1, -1] := by
      ext i j
      fin_cases i <;> fin_cases j <;> rfl
    have hstep : is_pos_def npEigvals ⟨[2, 2], [1, 0, 0, -1]⟩
        = Except.ok ((npEigvals 2 ((⟨[2, 2], [1, 0, 0, -1]⟩ : NArray).toMatrix 2)).all
            (fun ev => decide (0 < ev))) := rfl
    rw [hstep, hm, hdiag]
    rfl
  · have hm : (⟨[2, 2], [1, 0, 0, 1]⟩ : NArray).toMatrix 2
        = Matrix.diagonal ![1, 1] := by
      ext i j
      fin_cases i <;> fin_cases j <;> rfl
    have hstep : is_pos_def npEigvals ⟨[2, 2], [1, 0, 0, 1]⟩
        = Except.ok ((npEigvals 2 ((⟨[2, 2], [1, 0, 0, 1]⟩ : NArray).toMatrix 2)).all
            (fun ev => decide (0 < ev))) := rfl
    rw [hstep, hm, hdiag]
    rfl
  · rfl

/-- Witness for C7 at a concrete eigenvalue routine: reading the diagonal
off a diagonal matrix satisfies the diagonal-correctness contract, and
with it `is_pos_def` rejects the matrix [[1,0],[0,-1]]. -/
theorem is_pos_def_spec_witness :
    (∀ (n : Nat) (dv : Fin n → ℚ),
      diagEigvals n (Matrix.diagonal dv) = (List.finRange n).map dv) ∧
    is_pos_def diagEigvals ⟨[2, 2], [1, 0, 0, -1]⟩ = Except.ok false := by
  have hd : ∀ (n : Nat) (dv : Fin n → ℚ),
      diagEigvals n (Matrix.diagonal dv) = (List.finRange n).map dv := by
    intro n dv
    simp only [diagEigvals, Matrix.diagonal_apply_eq]
  exact ⟨hd, (is_pos_def_spec diagEigvals hd).2.2.1⟩
